import Mathlib

/-!
# SmartQuizHub — verification of the quiz session / scoring / leaderboard core

A shallow embedding of the quiz platform's core logic: the availability
gate, the scorer and its qualitative bucket, the quiz-session state
(start, answer selection, countdown tick, submit), the Firestore-style
document store the submit path writes to, the document-unlock rule, and
the leaderboard aggregation pipeline.

Timestamps are modelled as integers (epoch milliseconds).  Firestore
`setDoc` is modelled as an upsert on an association list keyed by
document path; `getDoc` as a lookup.  The scorer is modelled twice: as
the exact-rational idealisation `calculateScore` (`Math.round` is
`⌊x + 1/2⌋` on nonnegative values), used where the program's
floating-point evaluation is exact, and bit-faithfully as
`calculateScoreFP`, which evaluates `(correct / n) * 100` in IEEE-754
binary64 (each operation correctly rounded to nearest, ties to even,
carried out on exact dyadic rationals) before the final half-up
rounding — the two differ at half-integer ties such as 23 correct of 40.
-/

namespace SmartQuizHub

/-- A generated multiple-choice question (interface `Question`):
option texts, the index of the correct option, and an explanation. -/
structure Question where
  questionText : String
  options : List String
  correctOption : Int
  explanation : String
deriving Repr, DecidableEq, Inhabited

/-- The three lifecycle states of a quiz window. -/
inductive QuizStatus where
  | upcoming
  | active
  | ended
deriving Repr, DecidableEq

/-- Availability gate, from `fetchQuizzes`:
`let status = 'upcoming'; if (isPast(endDate)) status = 'ended';
else if (isAfter(now, startDate) && isBefore(now, endDate)) status = 'active';`
where date-fns gives `isPast e ↔ e < now`, `isAfter now s ↔ s < now`,
`isBefore now e ↔ now < e`. -/
def statusOf (startDate endDate now : Int) : QuizStatus :=
  if endDate < now then .ended
  else if startDate < now ∧ now < endDate then .active
  else .upcoming

/-- The counting loop of `calculateScore`:
`quizQuestions.forEach((question, index) => { if (answers[index] === question.correctOption) correct++ })`. -/
def countCorrect (questions : List Question) (answers : List Int) : Nat :=
  ((questions.zip answers).filter (fun p => p.2 == p.1.correctOption)).length

/-- `calculateScore`, the exact-rational idealisation of
`Math.round((correct / quizQuestions.length) * 100)`: `Math.round` on
nonnegative values is `⌊x + 1/2⌋`, and with the division carried out
exactly the result is the natural division `(200 * correct + n) / (2 * n)`
used here (`calculateScore_eq_round` proves the agreement with the
rounded rational).  The program evaluates `(correct / n) * 100` in
IEEE-754 binary64; `calculateScoreFP` below models that evaluation
bit-faithfully.  The two agree wherever the double result does not fall
on the far side of a rounding boundary — in particular at scores 0, 70
and 100 exercised by the concrete theorems below — but differ at
half-integer ties such as 23 correct of 40, where the double is
57.49999999999999 (see `c4_float_tie_counterexample`). -/
def calculateScore (questions : List Question) (answers : List Int) : Int :=
  ((200 * countCorrect questions answers + questions.length) /
    (2 * questions.length) : Nat)

/-- `getAnalysis`: `if (score >= 80) return 'Good'; if (score >= 60) return 'Fair';
return 'Needs Improvement';`. -/
def getAnalysis (score : Int) : String :=
  if score ≥ 80 then "Good"
  else if score ≥ 60 then "Fair"
  else "Needs Improvement"

/-- A quiz record as seen by the student dashboard (interface `Quiz`,
the fields the session logic reads). -/
structure Quiz where
  id : String
  roomId : String
  title : String
  durationMinutes : Nat
  startDate : Int
  endDate : Int
deriving Repr, DecidableEq

/-- A persisted submission document
(`rooms/{roomId}/quizzes/{quizId}/submissions/{studentId}`). -/
structure SubmissionRec where
  studentId : String
  answers : List Int
  score : Int
  analysis : String
  submittedAt : Int
deriving Repr, DecidableEq

/-- A persisted leaderboard document (`rooms/{roomId}/leaderboard/{docId}`). -/
structure LeaderboardRec where
  studentId : String
  studentName : String
  score : Int
  submittedAt : Int
deriving Repr, DecidableEq

/-- Firestore `setDoc`: an upsert — replace the record at the key if one
exists, otherwise append a new document. -/
def setDocList {κ ρ : Type} [DecidableEq κ] (k : κ) (v : ρ) :
    List (κ × ρ) → List (κ × ρ)
  | [] => [(k, v)]
  | (k', v') :: t => if k' = k then (k, v) :: t else (k', v') :: setDocList k v t

/-- Firestore `getDoc` followed by `.exists()` / `.data()`: lookup by key. -/
def getDocList {κ ρ : Type} [DecidableEq κ] (k : κ) : List (κ × ρ) → Option ρ
  | [] => none
  | (k', v') :: t => if k' = k then some v' else getDocList k t

/-- Submission is keyed by room id, quiz id and student id
(`rooms/{roomId}/quizzes/{quizId}/submissions/{studentId}`). -/
abbrev SubKey := String × String × String

/-- Leaderboard is keyed by room id and document id, the document id being
the quiz id alone (`rooms/{roomId}/leaderboard/{quizId}`): no student
component. -/
abbrev LbKey := String × String

/-- The persistent backend state reachable from the submit path. -/
structure Store where
  submissions : List (SubKey × SubmissionRec)
  leaderboard : List (LbKey × LeaderboardRec)
deriving Repr, DecidableEq

/-- The in-memory React state of `QuizzesTab` that the session logic
touches. -/
structure SessionState where
  selectedQuiz : Option Quiz
  quizQuestions : List Question
  answers : List Int
  currentQuestionIndex : Nat
  quizStarted : Bool
  timeLeft : Nat
deriving Repr, DecidableEq

/-- The initial `useState` values of the session fields. -/
def initialSession : SessionState :=
  { selectedQuiz := none
    quizQuestions := []
    answers := []
    currentQuestionIndex := 0
    quizStarted := false
    timeLeft := 0 }

/-- Client state: identity of the logged-in student plus backend and
session state. -/
structure AppState where
  userId : String
  userName : String
  store : Store
  session : SessionState
deriving Repr, DecidableEq

/-- `startQuiz(quiz)`: load the question bank, allocate `answers` as
`new Array(questions.length).fill(-1)`, reset the position, start the
countdown at `durationMinutes * 60` seconds. -/
def startQuiz (s : AppState) (quiz : Quiz) (questions : List Question) : AppState :=
  { s with session :=
    { selectedQuiz := some quiz
      quizQuestions := questions
      answers := List.replicate questions.length (-1)
      currentQuestionIndex := 0
      quizStarted := true
      timeLeft := quiz.durationMinutes * 60 } }

/-- `handleAnswerSelect(answerIndex)`: overwrite the slot at the current
question index. -/
def handleAnswerSelect (s : AppState) (answerIndex : Int) : AppState :=
  { s with session :=
    { s.session with
      answers := s.session.answers.set s.session.currentQuestionIndex answerIndex } }

/-- `handleSubmitQuiz`: guard `if (!selectedQuiz || !userProfile) return;`
compute score and analysis, `setDoc` the submission at
`rooms/{roomId}/quizzes/{quizId}/submissions/{studentId}`, `setDoc` the
leaderboard entry at `rooms/{roomId}/leaderboard/{quizId}`, then clear
`selectedQuiz`, `quizStarted`, `quizQuestions` and `answers`.  The two
Boolean parameters model availability of the backend for each of the two
awaited writes: a `false` write throws, control jumps to the `catch`
block (which only logs), and none of the later statements run. -/
def handleSubmitQuiz (s : AppState) (now : Int) (subWriteOk lbWriteOk : Bool) :
    AppState :=
  match s.session.selectedQuiz with
  | none => s
  | some quiz =>
    let score := calculateScore s.session.quizQuestions s.session.answers
    let analysis := getAnalysis score
    let subRec : SubmissionRec :=
      { studentId := s.userId
        answers := s.session.answers
        score := score
        analysis := analysis
        submittedAt := now }
    let lbRec : LeaderboardRec :=
      { studentId := s.userId
        studentName := s.userName
        score := score
        submittedAt := now }
    if subWriteOk then
      let store₁ : Store :=
        { s.store with
          submissions :=
            setDocList (quiz.roomId, quiz.id, s.userId) subRec s.store.submissions }
      if lbWriteOk then
        let store₂ : Store :=
          { store₁ with
            leaderboard :=
              setDocList (quiz.roomId, quiz.id) lbRec store₁.leaderboard }
        { s with
          store := store₂
          session :=
            { s.session with
              selectedQuiz := none
              quizStarted := false
              quizQuestions := []
              answers := [] } }
      else { s with store := store₁ }
    else s

/-- One firing of the countdown interval:
`if (quizStarted && timeLeft > 0) setInterval(... prev <= 1 ?
(handleSubmitQuiz(); 0) : prev - 1)`. -/
def tick (s : AppState) (now : Int) (subWriteOk lbWriteOk : Bool) : AppState :=
  if s.session.quizStarted ∧ 0 < s.session.timeLeft then
    if s.session.timeLeft ≤ 1 then
      let s' := handleSubmitQuiz s now subWriteOk lbWriteOk
      { s' with session := { s'.session with timeLeft := 0 } }
    else
      { s with session := { s.session with timeLeft := s.session.timeLeft - 1 } }
  else s

/-- `fetchQuizzes` computes the `submitted` flag of a quiz as
`submissionDoc.exists()` for the current student's submission document. -/
def fetchSubmitted (s : AppState) (quiz : Quiz) : Bool :=
  (getDocList (quiz.roomId, quiz.id, s.userId) s.store.submissions).isSome

/-- The only failure surfaced by the start guard. -/
inductive StartError where
  | ineligibleToStart
deriving Repr, DecidableEq

/-- The start operation as reachable in the UI: the button rendered by
`QuizzesTab` is guarded by `quiz.status === 'active' && !quiz.submitted`
(with `status` computed by the availability gate and `submitted` by
`fetchSubmitted`); only then does its handler run `startQuiz`. -/
def attemptStartQuiz (s : AppState) (quiz : Quiz) (questions : List Question)
    (now : Int) : Except StartError AppState :=
  if statusOf quiz.startDate quiz.endDate now = .active ∧ fetchSubmitted s quiz = false
  then .ok (startQuiz s quiz questions)
  else .error .ineligibleToStart

/-- Document unlock rule of `fetchDocuments`: `let unlocked = true;` and,
when the document is linked to a quiz found in its room,
`unlocked = new Date() > quizEndDate`.  The argument is the linked
quiz's end timestamp, or `none` when the document has no linked quiz. -/
def documentUnlocked (linkedQuizEnd : Option Int) (now : Int) : Bool :=
  match linkedQuizEnd with
  | none => true
  | some endDate => endDate < now

/-- Insertion step modelling `Array.prototype.sort` with comparator
`(a, b) => b.score - a.score`: ECMAScript sort is stable, and the unique
stable order for that comparator places each element after every element
of score `≥` its own that precedes it in the input; left-to-right
insertion realises exactly that order. -/
def insertByScore (e : LeaderboardRec) :
    List LeaderboardRec → List LeaderboardRec
  | [] => [e]
  | h :: t => if h.score < e.score then e :: h :: t else h :: insertByScore e t

/-- `entries.sort((a, b) => b.score - a.score)`: stable sort by score
descending. -/
def sortByScoreDesc (l : List LeaderboardRec) : List LeaderboardRec :=
  l.foldl (fun acc e => insertByScore e acc) []

/-- `.map((entry, index) => ({ ...entry, rank: index + 1 }))` applied to
the sorted entries. -/
def assignRanks (l : List LeaderboardRec) : List (LeaderboardRec × Nat) :=
  (sortByScoreDesc l).enum.map (fun p => (p.2, p.1 + 1))

/-- JS `String.prototype.startsWith`, computed on the character lists
(same predicate as Lean's `String.startsWith`, in a form the kernel can
evaluate). -/
def strStartsWith (s pre : String) : Bool :=
  pre.data.isPrefixOf s.data

/-- The per-quiz read of `fetchLeaderboards`: take the room's leaderboard
collection, keep documents with `doc.id.startsWith(quizDoc.id)`, then sort
and rank. -/
def fetchLeaderboardEntries (store : Store) (roomId quizId : String) :
    List (LeaderboardRec × Nat) :=
  assignRanks
    ((store.leaderboard.filter
        (fun p => p.1.1 == roomId && strStartsWith p.1.2 quizId)).map Prod.snd)

/-- A sample question whose correct option is option 0, used in concrete
instantiations. -/
def sampleQuestion : Question :=
  { questionText := "q"
    options := ["a", "b", "c", "d"]
    correctOption := 0
    explanation := "e" }

/-- Leaderboard entry of student A: score 90, submitted at time 1. -/
def entryA : LeaderboardRec :=
  { studentId := "A", studentName := "Alice", score := 90, submittedAt := 1 }

/-- Leaderboard entry of student B: score 90, submitted at time 0. -/
def entryB : LeaderboardRec :=
  { studentId := "B", studentName := "Bob", score := 90, submittedAt := 0 }

/-- Leaderboard entry of student C: score 70, submitted at time 2. -/
def entryC : LeaderboardRec :=
  { studentId := "C", studentName := "Cara", score := 70, submittedAt := 2 }

/-- A quiz open from time 0 to 1000000, one minute long. -/
def quiz1 : Quiz :=
  { id := "quiz1"
    roomId := "room1"
    title := "Quiz 1"
    durationMinutes := 1
    startDate := 0
    endDate := 1000000 }

/-- A fresh client state for student stu1 over an empty backend. -/
def baseState : AppState :=
  { userId := "stu1"
    userName := "Student One"
    store := { submissions := [], leaderboard := [] }
    session := initialSession }

/-- State after stu1 starts quiz1, answers the single question correctly
(option 0) and submits at time 10: the stored submission has score 100. -/
def firstSubmitState : AppState :=
  handleSubmitQuiz
    (handleAnswerSelect (startQuiz baseState quiz1 [sampleQuestion]) 0) 10 true true

/-- The racing second invocation of the submit handler: it reads the same
pre-clear session (answers now holding option 1, scoring 0) while the
store already contains the first submission. -/
def racingState : AppState :=
  { firstSubmitState with
    session := (handleAnswerSelect (startQuiz baseState quiz1 [sampleQuestion]) 1).session }

/-- State after the racing second submit invocation at time 20. -/
def secondSubmitState : AppState :=
  handleSubmitQuiz racingState 20 true true

/-- `n` successive firings of the countdown interval. -/
def ticks (n : Nat) (s : AppState) (now : Int) (subWriteOk lbWriteOk : Bool) :
    AppState :=
  match n with
  | 0 => s
  | n + 1 => ticks n (tick s now subWriteOk lbWriteOk) now subWriteOk lbWriteOk

/-- An in-progress session on quiz1 one second from expiry with its
single slot unset. -/
def expiringState : AppState :=
  { baseState with session :=
      { selectedQuiz := some quiz1
        quizQuestions := [sampleQuestion]
        answers := [-1]
        currentQuestionIndex := 0
        quizStarted := true
        timeLeft := 1 } }

/-- A second quiz in room1 whose id "q10" extends quiz id "q1". -/
def quizTen : Quiz :=
  { id := "q10"
    roomId := "room1"
    title := "Quiz 10"
    durationMinutes := 1
    startDate := 0
    endDate := 1000000 }

/-- A quiz in room1 with id "q1", a proper prefix of "q10". -/
def quizOne : Quiz :=
  { id := "q1"
    roomId := "room1"
    title := "Quiz A"
    durationMinutes := 1
    startDate := 0
    endDate := 1000000 }

/-- The store after stu1 submits quizOne (id "q1") and then quizTen
(id "q10"): one leaderboard document per quiz. -/
def overlapStore : Store :=
  (handleSubmitQuiz
    (startQuiz
      (handleSubmitQuiz (startQuiz baseState quizOne [sampleQuestion]) 10 true true)
      quizTen [sampleQuestion]) 20 true true).store

/-- Round-half-to-even of `a / b` over the naturals: the integer nearest
to the quotient, ties resolved to the even integer (the IEEE-754 default
rounding direction). -/
def rneDiv (a b : Nat) : Nat :=
  if 2 * (a % b) < b then a / b
  else if b < 2 * (a % b) then a / b + 1
  else if (a / b) % 2 = 0 then a / b else a / b + 1

/-- Fuelled binary logarithm: with fuel ≥ n this computes `Nat.log2 n`
(`log2Aux_eq_log2`) by structural recursion, in a form the kernel can
evaluate on literals. -/
def log2Aux : Nat → Nat → Nat
  | 0, _ => 0
  | fuel + 1, n => if 2 ≤ n then log2Aux fuel (n / 2) + 1 else 0

/-- `⌊log2 n⌋` for n ≥ 1 (and 0 at 0), kernel-computable. -/
def natLog2 (n : Nat) : Nat := log2Aux n n

/-- The minimal `k` with `2 ^ k ≥ c`, i.e. `⌈log2 c⌉` for c ≥ 1. -/
def ceilLog2 (c : Nat) : Nat :=
  if c ≤ 1 then 0 else natLog2 (c - 1) + 1

/-- Negated exponent of the binary64 ulp of `a / b` (for 0 < a ≤ b·2^53):
the ulp of a positive value v is `2 ^ (⌊log2 v⌋ − 52)`, clamped below at
`2 ^ (−1074)` for subnormals, so rounding v to the nearest multiple of
`2 ^ (−s)` with `s = min (52 − ⌊log2 v⌋) 1074` is exactly binary64
rounding.  `⌊log2 (a/b)⌋` is `⌊log2 ⌊a/b⌋⌋` when a ≥ b and
`−(min k with a·2^k ≥ b) = −⌈log2 ⌈b/a⌉⌉` when a < b. -/
def flExp (a b : Nat) : Nat :=
  let j : Int :=
    if b ≤ a then (natLog2 (a / b) : Int)
    else -(ceilLog2 ((b + a - 1) / a) : Int)
  (min (52 - j) 1074).toNat

/-- The IEEE-754 binary64 double nearest to `a / b` (round to nearest,
ties to even), as an exact dyadic pair `(m, s)` of value `m / 2 ^ s`:
this is the result of the correctly rounded double division of the
exactly representable integers a and b. -/
def flRat (a b : Nat) : Nat × Nat :=
  if a = 0 then (0, 0)
  else (rneDiv (a * 2 ^ flExp a b) b, flExp a b)

/-- Binary64 multiplication of the double `p.1 / 2 ^ p.2` by the exactly
representable constant 100: one more correctly rounded operation. -/
def fpMul100 (p : Nat × Nat) : Nat × Nat :=
  flRat (100 * p.1) (2 ^ p.2)

/-- `Math.round` of the nonnegative double `p.1 / 2 ^ p.2`: per the
ECMAScript spec the closest integral value, ties toward +∞ — the exact
`⌊p.1 / 2 ^ p.2 + 1/2⌋ = (2·p.1 + 2 ^ p.2) / 2 ^ (p.2 + 1)`
(`mathRoundD_eq_floor`). -/
def mathRoundD (p : Nat × Nat) : Nat :=
  (2 * p.1 + 2 ^ p.2) / 2 ^ (p.2 + 1)

/-- The exact rational value of a dyadic pair. -/
def dyadicVal (p : Nat × Nat) : ℚ := (p.1 : ℚ) / 2 ^ p.2

/-- `calculateScore` computed the way the program computes it:
`Math.round((correct / quizQuestions.length) * 100)` over IEEE-754
binary64 — `correct` and the length are integers below 2^53 and hence
exact doubles, the division and the multiplication are each correctly
rounded (nearest, ties to even), and `Math.round` is the exact half-up
rounding of the resulting double. -/
def calculateScoreFP (questions : List Question) (answers : List Int) : Int :=
  (mathRoundD (fpMul100
    (flRat (countCorrect questions answers) questions.length)) : Nat)

/-- An answer sheet for a 40-question quiz with exactly the first 23
slots correct (option 0) and the remaining 17 wrong. -/
def answers23of40 : List Int :=
  List.replicate 23 0 ++ List.replicate 17 1

/-- On a nonempty question list, `calculateScore` is exactly
`round (correct / n * 100)` computed over the rationals. -/
theorem calculateScore_eq_round (questions : List Question) (answers : List Int)
    (h : questions.length ≠ 0) :
    calculateScore questions answers =
      round ((countCorrect questions answers : ℚ) / (questions.length : ℚ) * 100) := by
  have hn : ((questions.length : ℚ)) ≠ 0 := Nat.cast_ne_zero.mpr h
  rw [round_eq]
  have hval : (countCorrect questions answers : ℚ) / (questions.length : ℚ) * 100 + 1 / 2
      = ((200 * countCorrect questions answers + questions.length : ℕ) : ℚ)
        / ((2 * questions.length : ℕ) : ℚ) := by
    push_cast
    field_simp
    ring
  rw [hval, Rat.floor_natCast_div_natCast]
  simp [calculateScore]

/-- The number of correctly answered slots never exceeds the number of
questions. -/
theorem countCorrect_le_length (questions : List Question) (answers : List Int) :
    countCorrect questions answers ≤ questions.length := by
  unfold countCorrect
  calc ((questions.zip answers).filter
          (fun p => p.2 == p.1.correctOption)).length
      ≤ (questions.zip answers).length := List.length_filter_le _ _
    _ ≤ questions.length := by rw [List.length_zip]; omega

/-- C2, counterexample.  With start = 0 and end = 10 the claimed boundary
behaviour fails on both ends: at now = start the gate reports `upcoming`,
not `active`, and at now = end it reports `upcoming`, not `ended`. -/
theorem c2_gate_boundary_counterexample :
    (0 : Int) < 10 ∧
    statusOf 0 10 0 = QuizStatus.upcoming ∧
    statusOf 0 10 0 ≠ QuizStatus.active ∧
    statusOf 0 10 10 = QuizStatus.upcoming ∧
    statusOf 0 10 10 ≠ QuizStatus.ended := by decide

/-- C2, amended.  For every quiz with start < end, the gate returns
exactly one of the three states, characterised by: `now ≤ start` or
`now = end` gives `upcoming`; `start < now < end` gives `active`;
`now > end` gives `ended`.  Both comparisons at the boundaries are
strict, so `now = start` and `now = end` each yield `upcoming`. -/
theorem c2_gate_trichotomy (startDate endDate now : Int)
    (h : startDate < endDate) :
    (statusOf startDate endDate now = QuizStatus.upcoming ↔
      now ≤ startDate ∨ now = endDate) ∧
    (statusOf startDate endDate now = QuizStatus.active ↔
      startDate < now ∧ now < endDate) ∧
    (statusOf startDate endDate now = QuizStatus.ended ↔ endDate < now) := by
  unfold statusOf
  split_ifs with h1 h2 <;> refine ⟨?_, ?_, ?_⟩ <;> simp <;> omega

/-- Witness for `c2_gate_trichotomy` at (start, end, now) = (0, 10, 3). -/
theorem c2_gate_trichotomy_witness :
    (0 : Int) < 10 ∧
    ((statusOf 0 10 3 = QuizStatus.upcoming ↔ (3 : Int) ≤ 0 ∨ (3 : Int) = 10) ∧
    (statusOf 0 10 3 = QuizStatus.active ↔ (0 : Int) < 3 ∧ (3 : Int) < 10) ∧
    (statusOf 0 10 3 = QuizStatus.ended ↔ (10 : Int) < 3)) :=
  ⟨by decide, c2_gate_trichotomy 0 10 3 (by decide)⟩

/-- With enough fuel the fuelled binary logarithm is `Nat.log2`. -/
theorem log2Aux_eq_log2 (fuel : Nat) :
    ∀ n : Nat, n ≤ fuel → log2Aux fuel n = Nat.log2 n := by
  induction fuel with
  | zero =>
    intro n hn
    have hn0 : n = 0 := by omega
    subst hn0
    rw [Nat.log2]
    rfl
  | succ fuel ih =>
    intro n hn
    rw [show log2Aux (fuel + 1) n
        = if 2 ≤ n then log2Aux fuel (n / 2) + 1 else 0 from rfl]
    rw [Nat.log2]
    by_cases h2 : 2 ≤ n
    · rw [if_pos h2, if_pos h2, ih (n / 2) (by omega)]
    · rw [if_neg h2, if_neg h2]

/-- `natLog2` computes `Nat.log2`. -/
theorem natLog2_eq_log2 (n : Nat) : natLog2 n = Nat.log2 n :=
  log2Aux_eq_log2 n n (le_refl n)

/-- The nearest integer to `a / b` never exceeds any `P` with
`a ≤ b · P`: nearest-rounding cannot cross an integer bound from
below. -/
theorem rneDiv_le_of_le (a b P : Nat) (hb : 0 < b) (h : a ≤ b * P) :
    rneDiv a b ≤ P := by
  have hq : a / b ≤ P := by
    calc a / b ≤ (b * P) / b := Nat.div_le_div_right h
      _ = P := Nat.mul_div_cancel_left P hb
  have hab : b * (a / b) + a % b = a := Nat.div_add_mod a b
  unfold rneDiv
  split_ifs with h1 h2 h3
  · exact hq
  · by_contra hcon
    have hqP : a / b = P := by omega
    rw [hqP] at hab
    omega
  · exact hq
  · by_contra hcon
    have hqP : a / b = P := by omega
    rw [hqP] at hab
    omega

/-- A double rounded from `a / b` with `a ≤ k · b` has value at most
`k`: its mantissa is bounded by `k` times its scale. -/
theorem flRat_fst_le_mul (a b k : Nat) (hab : a ≤ k * b) :
    (flRat a b).1 ≤ k * 2 ^ (flRat a b).2 := by
  unfold flRat
  by_cases ha : a = 0
  · simp [ha]
  · rw [if_neg ha]
    show rneDiv (a * 2 ^ flExp a b) b ≤ k * 2 ^ flExp a b
    have hb : 0 < b := by
      rcases Nat.eq_zero_or_pos b with hb0 | hb0
      · subst hb0
        simp at hab
        omega
      · exact hb0
    apply rneDiv_le_of_le _ _ _ hb
    calc a * 2 ^ flExp a b ≤ (k * b) * 2 ^ flExp a b :=
        Nat.mul_le_mul_right _ hab
      _ = b * (k * 2 ^ flExp a b) := by ring

/-- `Math.round` of a double of value at most `k` is at most `k`. -/
theorem mathRoundD_le (p : Nat × Nat) (k : Nat) (h : p.1 ≤ k * 2 ^ p.2) :
    mathRoundD p ≤ k := by
  unfold mathRoundD
  have h1 : 2 * p.1 + 2 ^ p.2 ≤ (2 * k + 1) * 2 ^ p.2 := by
    have h2 : 2 * p.1 ≤ 2 * (k * 2 ^ p.2) := by omega
    calc 2 * p.1 + 2 ^ p.2 ≤ 2 * (k * 2 ^ p.2) + 2 ^ p.2 := by omega
      _ = (2 * k + 1) * 2 ^ p.2 := by ring
  calc (2 * p.1 + 2 ^ p.2) / 2 ^ (p.2 + 1)
      ≤ ((2 * k + 1) * 2 ^ p.2) / 2 ^ (p.2 + 1) := Nat.div_le_div_right h1
    _ = k := by
      have hpos : 0 < 2 ^ p.2 := Nat.pos_pow_of_pos _ (by omega)
      have he : (2 * k + 1) * 2 ^ p.2 = 2 ^ p.2 + 2 ^ (p.2 + 1) * k := by ring
      have hlt : 2 ^ p.2 < 2 ^ (p.2 + 1) := by
        have h2 : 2 ^ (p.2 + 1) = 2 * 2 ^ p.2 := by ring
        omega
      rw [he, Nat.add_mul_div_left _ _ (by omega : 0 < 2 ^ (p.2 + 1)),
        Nat.div_eq_of_lt hlt]
      omega

/-- `mathRoundD` is the exact half-up rounding of the dyadic value. -/
theorem mathRoundD_eq_floor (p : Nat × Nat) :
    ((mathRoundD p : Nat) : Int) = ⌊dyadicVal p + 1 / 2⌋ := by
  unfold mathRoundD dyadicVal
  have h : (p.1 : ℚ) / 2 ^ p.2 + 1 / 2
      = ((2 * p.1 + 2 ^ p.2 : ℕ) : ℚ) / ((2 ^ (p.2 + 1) : ℕ) : ℚ) := by
    have h2 : ((2 : ℚ) ^ p.2) ≠ 0 := by positivity
    push_cast
    field_simp
    ring
  rw [h, Rat.floor_natCast_div_natCast]
  simp [Int.natCast_div]

/-- C4, counterexample.  With 40 questions and 23 correct the exact
value 100 × 23 / 40 is the tie 57.5, rounding up to 58 — but the
program's binary64 evaluation of `(23 / 40) * 100` is
57.49999999999999289…, strictly below the tie, so the scorer returns
57: the claimed exact formula does not hold of the program. -/
theorem c4_float_tie_counterexample :
    (List.replicate 40 sampleQuestion).length = 40 ∧
    answers23of40.length = 40 ∧
    countCorrect (List.replicate 40 sampleQuestion) answers23of40 = 23 ∧
    calculateScoreFP (List.replicate 40 sampleQuestion) answers23of40 = 57 ∧
    round ((100 * (countCorrect (List.replicate 40 sampleQuestion) answers23of40 : ℚ)) /
      ((List.replicate 40 sampleQuestion).length : ℚ)) = 58 := by
  refine ⟨by decide, by decide, by decide, by decide, ?_⟩
  rw [show countCorrect (List.replicate 40 sampleQuestion) answers23of40 = 23
      from by decide]
  rw [show (List.replicate 40 sampleQuestion).length = 40 from by decide]
  rw [show ((100 * ((23 : ℕ) : ℚ)) / ((40 : ℕ) : ℚ)) = ((58 : ℤ) : ℚ) - 1 / 2
      by norm_num]
  rw [round_eq]
  rw [show ((58 : ℤ) : ℚ) - 1 / 2 + 1 / 2 = ((58 : ℤ) : ℚ) by ring]
  exact Int.floor_intCast 58

/-- C4, amended.  On question lists of length n ≥ 1 with an answer slot
per question, the scorer returns the `Math.round` (exact half-up
rounding) of the IEEE-754 binary64 evaluation of `(correctCount / n) ×
100` — not of the exact rational `100 × correctCount / n`, from which it
differs at half-integer ties such as 23 of 40; a slot counts as correct
exactly when it equals the question's correct-option index
(`countCorrect`); the result is an integer in [0, 100]; and scoring the
same answers against the same questions twice yields identical
results. -/
theorem c4_score_formula_fp (questions : List Question) (answers : List Int)
    (_hn : 0 < questions.length) (_hlen : answers.length = questions.length) :
    calculateScoreFP questions answers =
      ⌊dyadicVal (fpMul100 (flRat (countCorrect questions answers)
        questions.length)) + 1 / 2⌋ ∧
    0 ≤ calculateScoreFP questions answers ∧
    calculateScoreFP questions answers ≤ 100 ∧
    calculateScoreFP questions answers = calculateScoreFP questions answers := by
  have hc : countCorrect questions answers ≤ questions.length :=
    countCorrect_le_length questions answers
  have hm₁ : (flRat (countCorrect questions answers) questions.length).1 ≤
      1 * 2 ^ (flRat (countCorrect questions answers) questions.length).2 :=
    flRat_fst_le_mul _ _ 1 (by omega)
  have hm₂ : (fpMul100 (flRat (countCorrect questions answers)
        questions.length)).1 ≤
      100 * 2 ^ (fpMul100 (flRat (countCorrect questions answers)
        questions.length)).2 := by
    unfold fpMul100
    apply flRat_fst_le_mul
    calc 100 * (flRat (countCorrect questions answers) questions.length).1
        ≤ 100 * (1 * 2 ^ (flRat (countCorrect questions answers)
            questions.length).2) := Nat.mul_le_mul_left _ hm₁
      _ = 100 * 2 ^ (flRat (countCorrect questions answers)
            questions.length).2 := by ring
  refine ⟨mathRoundD_eq_floor _, ?_, ?_, rfl⟩
  · unfold calculateScoreFP
    exact_mod_cast Nat.zero_le _
  · unfold calculateScoreFP
    exact_mod_cast mathRoundD_le _ 100 hm₂

/-- Witness for `c4_score_formula_fp`: ten questions, seven answered
correctly (the binary64 evaluation gives 70.00000000000001, whose
half-up rounding is 70). -/
theorem c4_score_formula_fp_witness :
    0 < (List.replicate 10 sampleQuestion).length ∧
    ([0, 0, 0, 0, 0, 0, 0, 1, 1, 1] : List Int).length =
      (List.replicate 10 sampleQuestion).length ∧
    (calculateScoreFP (List.replicate 10 sampleQuestion) [0, 0, 0, 0, 0, 0, 0, 1, 1, 1] =
      ⌊dyadicVal (fpMul100 (flRat (countCorrect (List.replicate 10 sampleQuestion)
          [0, 0, 0, 0, 0, 0, 0, 1, 1, 1]) (List.replicate 10 sampleQuestion).length)) +
        1 / 2⌋ ∧
    0 ≤ calculateScoreFP (List.replicate 10 sampleQuestion) [0, 0, 0, 0, 0, 0, 0, 1, 1, 1] ∧
    calculateScoreFP (List.replicate 10 sampleQuestion) [0, 0, 0, 0, 0, 0, 0, 1, 1, 1] ≤ 100 ∧
    calculateScoreFP (List.replicate 10 sampleQuestion) [0, 0, 0, 0, 0, 0, 0, 1, 1, 1] =
      calculateScoreFP (List.replicate 10 sampleQuestion) [0, 0, 0, 0, 0, 0, 0, 1, 1, 1]) :=
  ⟨by decide, by decide, c4_score_formula_fp _ _ (by decide) (by decide)⟩

/-- C5.  The bucket is "Good" exactly for percent ≥ 80, "Fair" exactly
for 60 ≤ percent < 80, "Needs Improvement" exactly for percent < 60; a
ten-question quiz with seven correct answers scores 70, bucket "Fair". -/
theorem c5_bucket_thresholds (percent : Int) :
    (getAnalysis percent = "Good" ↔ 80 ≤ percent) ∧
    (getAnalysis percent = "Fair" ↔ 60 ≤ percent ∧ percent < 80) ∧
    (getAnalysis percent = "Needs Improvement" ↔ percent < 60) ∧
    calculateScore (List.replicate 10 sampleQuestion) [0, 0, 0, 0, 0, 0, 0, 1, 1, 1] = 70 ∧
    getAnalysis (calculateScore (List.replicate 10 sampleQuestion)
      [0, 0, 0, 0, 0, 0, 0, 1, 1, 1]) = "Fair" := by
  refine ⟨?_, ?_, ?_, by decide, by decide⟩ <;>
    unfold getAnalysis <;> split_ifs <;>
    constructor <;> intro hx <;>
    first | rfl | omega | (exfalso; revert hx; decide)

/-- C8.  A document linked to a quiz (found in its room) is unlocked
exactly when now > end — locked while now ≤ end, so end = now − 1s is
unlocked and end = now + 1s is locked; an unlinked document is always
unlocked. -/
theorem c8_document_unlock (endDate now : Int) :
    (documentUnlocked (some endDate) now = true ↔ endDate < now) ∧
    (documentUnlocked (some endDate) now = false ↔ now ≤ endDate) ∧
    documentUnlocked none now = true ∧
    documentUnlocked (some (now - 1000)) now = true ∧
    documentUnlocked (some (now + 1000)) now = false := by
  unfold documentUnlocked
  exact ⟨by simp, by simp, rfl, by simp, by simp⟩

/-- Inserting an entry permutes consing it to the front. -/
theorem insertByScore_perm (e : LeaderboardRec) (l : List LeaderboardRec) :
    (insertByScore e l).Perm (e :: l) := by
  induction l with
  | nil => simp [insertByScore]
  | cons h t ih =>
    unfold insertByScore
    split_ifs with hlt
    · exact List.Perm.refl _
    · exact (ih.cons h).trans (List.Perm.swap e h t)

/-- Inserting into a list sorted by score descending keeps it sorted. -/
theorem insertByScore_sorted (e : LeaderboardRec) :
    ∀ l : List LeaderboardRec, l.Sorted (fun a b => b.score ≤ a.score) →
    (insertByScore e l).Sorted (fun a b => b.score ≤ a.score) := by
  intro l
  induction l with
  | nil => intro _; simp [insertByScore]
  | cons h t ih =>
    intro hl
    rw [List.sorted_cons] at hl
    obtain ⟨hh, ht⟩ := hl
    unfold insertByScore
    split_ifs with hlt
    · rw [List.sorted_cons]
      refine ⟨?_, ?_⟩
      · intro b hb
        rcases List.mem_cons.mp hb with rfl | hb
        · exact hlt.le
        · exact (hh b hb).trans hlt.le
      · rw [List.sorted_cons]; exact ⟨hh, ht⟩
    · rw [List.sorted_cons]
      refine ⟨?_, ih ht⟩
      intro b hb
      rcases List.mem_cons.mp ((insertByScore_perm e t).mem_iff.mp hb) with rfl | hbt
      · omega
      · exact hh b hbt

/-- The insertion fold permutes the concatenation of seed and input. -/
theorem foldl_insertByScore_perm (l : List LeaderboardRec) :
    ∀ acc : List LeaderboardRec,
    (l.foldl (fun acc e => insertByScore e acc) acc).Perm (acc ++ l) := by
  induction l with
  | nil => intro acc; simp
  | cons x t ih =>
    intro acc
    simp only [List.foldl_cons]
    have h2 : (insertByScore x acc ++ t).Perm (acc ++ x :: t) :=
      ((insertByScore_perm x acc).append_right t).trans List.perm_middle.symm
    exact (ih (insertByScore x acc)).trans h2

/-- The sort permutes its input. -/
theorem sortByScoreDesc_perm (l : List LeaderboardRec) :
    (sortByScoreDesc l).Perm l := by
  have h := foldl_insertByScore_perm l []
  simpa [sortByScoreDesc] using h

/-- The insertion fold of a sorted seed is sorted. -/
theorem foldl_insertByScore_sorted (l : List LeaderboardRec) :
    ∀ acc : List LeaderboardRec, acc.Sorted (fun a b => b.score ≤ a.score) →
    (l.foldl (fun acc e => insertByScore e acc) acc).Sorted
      (fun a b => b.score ≤ a.score) := by
  induction l with
  | nil => intro acc h; simpa using h
  | cons x t ih =>
    intro acc h
    simp only [List.foldl_cons]
    exact ih (insertByScore x acc) (insertByScore_sorted x acc h)

/-- The sort output is ordered by score descending. -/
theorem sortByScoreDesc_sorted (l : List LeaderboardRec) :
    (sortByScoreDesc l).Sorted (fun a b => b.score ≤ a.score) :=
  foldl_insertByScore_sorted l [] (by simp)

/-- Stability of one insertion: within any score class of a sorted list,
the inserted element lands last. -/
theorem insertByScore_filter (e : LeaderboardRec) (sc : Int) :
    ∀ l : List LeaderboardRec, l.Sorted (fun a b => b.score ≤ a.score) →
    (insertByScore e l).filter (fun x => x.score == sc) =
      l.filter (fun x => x.score == sc) ++ (if e.score = sc then [e] else []) := by
  intro l
  induction l with
  | nil =>
    intro _
    by_cases hsc : e.score = sc <;> simp [insertByScore, List.filter_cons, hsc]
  | cons h t ih =>
    intro hl
    rw [List.sorted_cons] at hl
    obtain ⟨hh, ht⟩ := hl
    by_cases hlt : h.score < e.score
    · rw [show insertByScore e (h :: t) = e :: h :: t from by
        simp only [insertByScore]; rw [if_pos hlt]]
      by_cases hsc : e.score = sc
      · have hnil : (h :: t).filter (fun x => x.score == sc) = [] := by
          rw [List.filter_eq_nil_iff]
          intro b hb
          have hble : b.score ≤ h.score := by
            rcases List.mem_cons.mp hb with rfl | hbt
            · exact le_refl _
            · exact hh b hbt
          simp only [beq_iff_eq]
          omega
        simp [List.filter_cons, hsc, hnil]
      · simp [List.filter_cons, hsc]
    · rw [show insertByScore e (h :: t) = h :: insertByScore e t from by
        simp only [insertByScore]; rw [if_neg hlt]]
      simp only [List.filter_cons, ih ht]
      by_cases hph : h.score = sc <;> simp [hph, List.cons_append]

/-- Stability of the fold: each score class of the output is the
corresponding score class of the seed followed by that of the input. -/
theorem foldl_insertByScore_filter (sc : Int) (l : List LeaderboardRec) :
    ∀ acc : List LeaderboardRec, acc.Sorted (fun a b => b.score ≤ a.score) →
    (l.foldl (fun acc e => insertByScore e acc) acc).filter
        (fun x => x.score == sc) =
      acc.filter (fun x => x.score == sc) ++ l.filter (fun x => x.score == sc) := by
  induction l with
  | nil => intro acc _; simp
  | cons x t ih =>
    intro acc hacc
    simp only [List.foldl_cons]
    rw [ih (insertByScore x acc) (insertByScore_sorted x acc hacc),
      insertByScore_filter x sc acc hacc]
    by_cases hsc : x.score = sc <;>
      simp [List.filter_cons, hsc, List.append_assoc, List.cons_append]

/-- Stability of the sort: each score class keeps its input order. -/
theorem sortByScoreDesc_filter (l : List LeaderboardRec) (sc : Int) :
    (sortByScoreDesc l).filter (fun x => x.score == sc) =
      l.filter (fun x => x.score == sc) := by
  have h := foldl_insertByScore_filter sc l [] (by simp)
  simpa [sortByScoreDesc] using h

/-- Rank labels of an enumeration starting at `n` are `n+1, …, n+len`. -/
theorem enumFrom_map_rank (l : List LeaderboardRec) :
    ∀ n : Nat, (List.enumFrom n l).map (fun p => p.1 + 1) =
      List.range' (n + 1) l.length := by
  induction l with
  | nil => intro n; simp
  | cons x t ih =>
    intro n
    simp [List.enumFrom, List.range'_succ, ih (n + 1)]

/-- The assigned ranks are exactly 1, 2, …, n: 1-based and contiguous. -/
theorem assignRanks_ranks (l : List LeaderboardRec) :
    (assignRanks l).map Prod.snd = List.range' 1 l.length := by
  unfold assignRanks
  rw [List.map_map]
  have h := enumFrom_map_rank (sortByScoreDesc l) 0
  rw [(sortByScoreDesc_perm l).length_eq] at h
  exact h

/-- C3, counterexample.  On the claim's own instance [(A,90,t1), (B,90,t0),
(C,70,t2)] with t0 earlier than t1, the aggregator ranks A first: the
sort compares scores only, so the 90-point tie keeps input order and is
not broken by the earlier timestamp; the claimed ranking [B=1, A=2, C=3]
does not hold. -/
theorem c3_tiebreak_counterexample :
    entryB.submittedAt < entryA.submittedAt ∧
    entryA.score = entryB.score ∧
    (assignRanks [entryA, entryB, entryC]).map (fun p => (p.1.studentId, p.2)) =
      [("A", 1), ("B", 2), ("C", 3)] ∧
    (assignRanks [entryA, entryB, entryC]).map (fun p => (p.1.studentId, p.2)) ≠
      [("B", 1), ("A", 2), ("C", 3)] := by decide

/-- C3, amended.  The aggregator orders entries by score descending and
assigns 1-based contiguous ranks (no gaps, no shared ranks even on score
ties); ties are broken by the input (fetch) order of the persisted
entries — stable sort — not by submission timestamp; recomputing on the
same input yields identical ranks. -/
theorem c3_leaderboard_ranking (l : List LeaderboardRec) :
    (sortByScoreDesc l).Perm l ∧
    (sortByScoreDesc l).Sorted (fun a b => b.score ≤ a.score) ∧
    (∀ sc : Int, (sortByScoreDesc l).filter (fun x => x.score == sc) =
      l.filter (fun x => x.score == sc)) ∧
    (assignRanks l).map Prod.snd = List.range' 1 l.length ∧
    assignRanks l = assignRanks l :=
  ⟨sortByScoreDesc_perm l, sortByScoreDesc_sorted l,
    fun sc => sortByScoreDesc_filter l sc, assignRanks_ranks l, rfl⟩

/-- `getDoc` after `setDoc` at the same key returns the value just written. -/
theorem getDocList_setDocList_self {κ ρ : Type} [DecidableEq κ] (k : κ) (v : ρ) :
    ∀ l : List (κ × ρ), getDocList k (setDocList k v l) = some v := by
  intro l
  induction l with
  | nil => simp [setDocList, getDocList]
  | cons p t ih =>
    obtain ⟨k', v'⟩ := p
    by_cases hk : k' = k
    · subst hk; simp [setDocList, getDocList]
    · simp [setDocList, getDocList, hk, ih]

/-- C9.  If a persistence write fails during submission, the in-memory
session is left unchanged: the recorded answers, the selected quiz, the
question bank and the started flag survive the error path, so the
attempt remains retryable by invoking submit again. -/
theorem c9_storage_failure_preserves_session (s : AppState) (now : Int)
    (subWriteOk lbWriteOk : Bool)
    (h : subWriteOk = false ∨ lbWriteOk = false) :
    (handleSubmitQuiz s now subWriteOk lbWriteOk).session.answers =
      s.session.answers ∧
    (handleSubmitQuiz s now subWriteOk lbWriteOk).session.selectedQuiz =
      s.session.selectedQuiz ∧
    (handleSubmitQuiz s now subWriteOk lbWriteOk).session.quizQuestions =
      s.session.quizQuestions ∧
    (handleSubmitQuiz s now subWriteOk lbWriteOk).session.quizStarted =
      s.session.quizStarted := by
  cases subWriteOk <;> cases lbWriteOk <;>
    first
      | (rcases h with h | h <;> exact Bool.noConfusion h)
      | (unfold handleSubmitQuiz; cases hq : s.session.selectedQuiz <;> simp [hq])

/-- Witness for `c9_storage_failure_preserves_session`: a failing
submission write on a freshly started session. -/
theorem c9_storage_failure_witness :
    ((false = false ∨ true = false) ∧
    (handleSubmitQuiz (startQuiz baseState quiz1 [sampleQuestion]) 10 false true).session.answers =
      (startQuiz baseState quiz1 [sampleQuestion]).session.answers ∧
    (handleSubmitQuiz (startQuiz baseState quiz1 [sampleQuestion]) 10 false true).session.selectedQuiz =
      (startQuiz baseState quiz1 [sampleQuestion]).session.selectedQuiz ∧
    (handleSubmitQuiz (startQuiz baseState quiz1 [sampleQuestion]) 10 false true).session.quizQuestions =
      (startQuiz baseState quiz1 [sampleQuestion]).session.quizQuestions ∧
    (handleSubmitQuiz (startQuiz baseState quiz1 [sampleQuestion]) 10 false true).session.quizStarted =
      (startQuiz baseState quiz1 [sampleQuestion]).session.quizStarted) :=
  ⟨Or.inl rfl,
    (c9_storage_failure_preserves_session
      (startQuiz baseState quiz1 [sampleQuestion]) 10 false true (Or.inl rfl)).1,
    (c9_storage_failure_preserves_session
      (startQuiz baseState quiz1 [sampleQuestion]) 10 false true (Or.inl rfl)).2.1,
    (c9_storage_failure_preserves_session
      (startQuiz baseState quiz1 [sampleQuestion]) 10 false true (Or.inl rfl)).2.2.1,
    (c9_storage_failure_preserves_session
      (startQuiz baseState quiz1 [sampleQuestion]) 10 false true (Or.inl rfl)).2.2.2⟩

/-- C7.  After a successful start and a successful submit, a second start
attempt for the same (student, quiz) is rejected as ineligible: the start
guard requires the availability gate to report `active` and the student's
submission document not to exist, and the submit just persisted that
document. -/
theorem c7_no_restart_after_submit (s : AppState) (quiz : Quiz)
    (questions questions' : List Question) (now₁ now₂ now₃ : Int) (s₁ : AppState)
    (h : attemptStartQuiz s quiz questions now₁ = Except.ok s₁) :
    attemptStartQuiz (handleSubmitQuiz s₁ now₂ true true) quiz questions' now₃ =
      Except.error StartError.ineligibleToStart := by
  unfold attemptStartQuiz at h
  by_cases hc : statusOf quiz.startDate quiz.endDate now₁ = QuizStatus.active ∧
      fetchSubmitted s quiz = false
  · rw [if_pos hc, Except.ok.injEq] at h
    subst h
    have hsub : fetchSubmitted
        (handleSubmitQuiz (startQuiz s quiz questions) now₂ true true) quiz = true := by
      unfold fetchSubmitted handleSubmitQuiz startQuiz
      simp [getDocList_setDocList_self]
    unfold attemptStartQuiz
    rw [if_neg]
    intro hcon
    rw [hsub] at hcon
    exact absurd hcon.2 (by simp)
  · rw [if_neg hc] at h
    exact absurd h (by simp)

/-- Witness for `c7_no_restart_after_submit`: stu1 starts quiz1 inside
its window, submits, and the renewed start attempt is refused. -/
theorem c7_no_restart_witness :
    (attemptStartQuiz baseState quiz1 [sampleQuestion] 5 =
      Except.ok (startQuiz baseState quiz1 [sampleQuestion]) ∧
    attemptStartQuiz
      (handleSubmitQuiz (startQuiz baseState quiz1 [sampleQuestion]) 6 true true)
      quiz1 [sampleQuestion] 7 = Except.error StartError.ineligibleToStart) :=
  ⟨by rfl,
    c7_no_restart_after_submit baseState quiz1 [sampleQuestion] [sampleQuestion]
      5 6 7 (startQuiz baseState quiz1 [sampleQuestion]) (by rfl)⟩

/-- C1, at the failing input.  The first submit stores score 100 for
(stu1, quiz1).  A second invocation of the submit handler for the same
pair does not fail with alreadyExists: the `setDoc` write is an upsert
that keeps a single record but silently replaces the stored score
(100 becomes 0) and timestamp, contradicting the required guarded
create-once behaviour. -/
theorem c1_submit_upsert_overwrites :
    firstSubmitState.store.submissions.map (fun p => (p.1, p.2.score, p.2.submittedAt)) =
      [(("room1", "quiz1", "stu1"), 100, 10)] ∧
    secondSubmitState.store.submissions.length = 1 ∧
    secondSubmitState.store.submissions.map (fun p => (p.1, p.2.score, p.2.submittedAt)) =
      [(("room1", "quiz1", "stu1"), 0, 20)] := by decide

/-- The submit handler never reads `timeLeft`, so overriding it
beforehand and zeroing it afterwards matches a plain submit followed by
the same zeroing. -/
theorem handleSubmitQuiz_timeLeft_irrel (s : AppState) (t : Nat) (now : Int)
    (ok₁ ok₂ : Bool) :
    { handleSubmitQuiz { s with session := { s.session with timeLeft := t } }
        now ok₁ ok₂ with
      session := { (handleSubmitQuiz
        { s with session := { s.session with timeLeft := t } }
        now ok₁ ok₂).session with timeLeft := 0 } } =
    { handleSubmitQuiz s now ok₁ ok₂ with
      session :=
        { (handleSubmitQuiz s now ok₁ ok₂).session with timeLeft := 0 } } := by
  unfold handleSubmitQuiz
  cases hq : s.session.selectedQuiz <;> cases ok₁ <;> cases ok₂ <;> simp [hq]

/-- A started countdown at `k ≥ 1` seconds, fired `k` times, performs the
automatic submit with the answers recorded at that moment and zeroes the
clock. -/
theorem ticks_expire (now : Int) (ok₁ ok₂ : Bool) :
    ∀ (k : Nat) (s : AppState), s.session.quizStarted = true →
    s.session.timeLeft = k → 1 ≤ k →
    ticks k s now ok₁ ok₂ =
      { handleSubmitQuiz s now ok₁ ok₂ with
        session :=
          { (handleSubmitQuiz s now ok₁ ok₂).session with timeLeft := 0 } } := by
  intro k
  induction k with
  | zero => intro s _ _ h1; omega
  | succ k ih =>
    intro s hstart hleft _
    by_cases hk : 1 ≤ k
    · -- not yet the expiring tick: decrement and recurse
      have hdec : tick s now ok₁ ok₂ =
          { s with session :=
              { s.session with timeLeft := s.session.timeLeft - 1 } } := by
        unfold tick
        rw [if_pos ⟨hstart, by omega⟩, if_neg (by omega)]
      have hrec := ih
        { s with session := { s.session with timeLeft := s.session.timeLeft - 1 } }
        hstart (by simp [hleft]) hk
      have h1 : ticks (k + 1) s now ok₁ ok₂ =
          ticks k (tick s now ok₁ ok₂) now ok₁ ok₂ := rfl
      rw [h1, hdec, hrec]
      exact handleSubmitQuiz_timeLeft_irrel s (s.session.timeLeft - 1) now ok₁ ok₂
    · -- k = 0: this is the expiring tick
      have hk0 : k = 0 := by omega
      subst hk0
      have h1 : ticks 1 s now ok₁ ok₂ = tick s now ok₁ ok₂ := rfl
      rw [h1]
      unfold tick
      rw [if_pos ⟨hstart, by omega⟩, if_pos (by omega)]

/-- With every slot still holding the unset sentinel −1 and every
correct-option index nonnegative, no slot counts as correct. -/
theorem countCorrect_replicate_neg (qs : List Question)
    (h : ∀ q ∈ qs, 0 ≤ q.correctOption) :
    countCorrect qs (List.replicate qs.length (-1)) = 0 := by
  unfold countCorrect
  rw [List.length_eq_zero, List.filter_eq_nil_iff]
  intro p hp
  obtain ⟨a, b⟩ := p
  obtain ⟨hp1, hp2⟩ := List.of_mem_zip hp
  have h2 : b = -1 := List.eq_of_mem_replicate hp2
  have h1 : 0 ≤ a.correctOption := h a hp1
  simp only [beq_iff_eq, h2]
  omega

/-- An untouched answer sheet scores 0. -/
theorem calculateScore_replicate_neg (qs : List Question)
    (h : ∀ q ∈ qs, 0 ≤ q.correctOption) :
    calculateScore qs (List.replicate qs.length (-1)) = 0 := by
  unfold calculateScore
  rw [countCorrect_replicate_neg qs h]
  have h0 : (200 * 0 + qs.length) / (2 * qs.length) = 0 := by
    rcases Nat.eq_zero_or_pos qs.length with hz | hpos
    · simp [hz]
    · exact Nat.div_eq_of_lt (by omega)
  exact_mod_cast congrArg (Nat.cast : Nat → Int) h0

/-- C6.  The tick that expires the countdown submits exactly like a
manual submit, on whatever answers are recorded at that moment (first
conjunct, for any in-progress session one second from expiry); and a
session started and then left untouched for its whole duration ends
Submitted with every slot still the unset sentinel −1 — which, with
correct-option indices in 0–3, never matches — so the persisted
submission records the untouched answers and score 0. -/
theorem c6_timeout_autosubmit (s s' : AppState) (quiz : Quiz)
    (qs : List Question) (now now' : Int) (ok₁ ok₂ : Bool)
    (hstart : s'.session.quizStarted = true) (hleft : s'.session.timeLeft = 1)
    (hd : 1 ≤ quiz.durationMinutes)
    (hopt : ∀ q ∈ qs, 0 ≤ q.correctOption ∧ q.correctOption ≤ 3) :
    tick s' now' ok₁ ok₂ =
      { handleSubmitQuiz s' now' ok₁ ok₂ with
        session :=
          { (handleSubmitQuiz s' now' ok₁ ok₂).session with timeLeft := 0 } } ∧
    (ticks (quiz.durationMinutes * 60) (startQuiz s quiz qs)
      now true true).session.quizStarted = false ∧
    (ticks (quiz.durationMinutes * 60) (startQuiz s quiz qs)
      now true true).session.selectedQuiz = none ∧
    getDocList (quiz.roomId, quiz.id, s.userId)
        (ticks (quiz.durationMinutes * 60) (startQuiz s quiz qs)
          now true true).store.submissions =
      some { studentId := s.userId
             answers := List.replicate qs.length (-1)
             score := 0
             analysis := "Needs Improvement"
             submittedAt := now } := by
  have hexp := ticks_expire now true true (quiz.durationMinutes * 60)
    (startQuiz s quiz qs) rfl rfl (by omega)
  have hscore : calculateScore qs (List.replicate qs.length (-1)) = 0 :=
    calculateScore_replicate_neg qs (fun q hq => (hopt q hq).1)
  refine ⟨?_, ?_, ?_, ?_⟩
  · unfold tick
    rw [if_pos ⟨hstart, by omega⟩, if_pos (by omega)]
  · rw [hexp]; simp [handleSubmitQuiz, startQuiz]
  · rw [hexp]; simp [handleSubmitQuiz, startQuiz]
  · rw [hexp]
    simp [handleSubmitQuiz, startQuiz, hscore, getAnalysis,
      getDocList_setDocList_self]

/-- Witness for `c6_timeout_autosubmit`: quiz1 (one minute) started from
the base state and left untouched, and `expiringState` for the
expiring-tick conjunct. -/
theorem c6_timeout_autosubmit_witness :
    (expiringState.session.quizStarted = true ∧
    expiringState.session.timeLeft = 1 ∧
    1 ≤ quiz1.durationMinutes ∧
    (∀ q ∈ [sampleQuestion], 0 ≤ q.correctOption ∧ q.correctOption ≤ 3)) ∧
    (tick expiringState 200 true true =
      { handleSubmitQuiz expiringState 200 true true with
        session :=
          { (handleSubmitQuiz expiringState 200 true true).session with
            timeLeft := 0 } } ∧
    (ticks (quiz1.durationMinutes * 60) (startQuiz baseState quiz1 [sampleQuestion])
      100 true true).session.quizStarted = false ∧
    (ticks (quiz1.durationMinutes * 60) (startQuiz baseState quiz1 [sampleQuestion])
      100 true true).session.selectedQuiz = none ∧
    getDocList (quiz1.roomId, quiz1.id, baseState.userId)
        (ticks (quiz1.durationMinutes * 60) (startQuiz baseState quiz1 [sampleQuestion])
          100 true true).store.submissions =
      some { studentId := baseState.userId
             answers := List.replicate ([sampleQuestion] : List Question).length (-1)
             score := 0
             analysis := "Needs Improvement"
             submittedAt := 100 }) :=
  ⟨⟨rfl, rfl, by decide, by decide⟩,
    c6_timeout_autosubmit baseState expiringState quiz1 [sampleQuestion]
      100 200 true true rfl rfl (by decide) (by decide)⟩

/-- `setDoc` keeps the stored keys, except for appending the written key
when it was absent. -/
theorem setDocList_map_fst {κ ρ : Type} [DecidableEq κ] (k : κ) (v : ρ) :
    ∀ l : List (κ × ρ), (setDocList k v l).map Prod.fst =
      if k ∈ l.map Prod.fst then l.map Prod.fst else l.map Prod.fst ++ [k] := by
  intro l
  induction l with
  | nil => simp [setDocList]
  | cons p t ih =>
    obtain ⟨k', v'⟩ := p
    by_cases hk : k' = k
    · subst hk
      simp [setDocList]
    · by_cases hmem : k ∈ t.map Prod.fst <;>
        simp [setDocList, hk, ih, hmem, Ne.symm hk]

/-- `setDoc` preserves key uniqueness of the stored documents. -/
theorem setDocList_nodup_keys {κ ρ : Type} [DecidableEq κ] (k : κ) (v : ρ)
    (l : List (κ × ρ)) (h : (l.map Prod.fst).Nodup) :
    ((setDocList k v l).map Prod.fst).Nodup := by
  rw [setDocList_map_fst]
  by_cases hmem : k ∈ l.map Prod.fst
  · simpa [hmem] using h
  · simp [hmem, List.nodup_append, h]

/-- A keyed list with unique keys that are all equal holds at most one
document. -/
theorem length_le_one_of_const_keys {κ ρ : Type} (l : List (κ × ρ)) (c : κ)
    (hnd : (l.map Prod.fst).Nodup) (hall : ∀ p ∈ l, p.1 = c) :
    l.length ≤ 1 := by
  rcases l with _ | ⟨p, _ | ⟨q, t⟩⟩
  · simp
  · simp
  · exfalso
    have hp : p.1 = c := hall p (by simp)
    have hq : q.1 = c := hall q (by simp)
    rw [List.map_cons, List.map_cons, List.nodup_cons] at hnd
    exact hnd.1 (by simp [hp, hq])

/-- Ranking assigns one rank per entry. -/
theorem assignRanks_length (l : List LeaderboardRec) :
    (assignRanks l).length = l.length := by
  unfold assignRanks
  rw [List.length_map, List.enum_length, (sortByScoreDesc_perm l).length_eq]

/-- C10, amended.  The leaderboard write path is keyed by (room, quiz)
only — no student component — so a submission by any student replaces the
entry previously stored for the same quiz, and with unique stored keys at
most one leaderboard record per quiz ever exists; the prefix-filter read
returns at most one entry *provided* no other stored document id in the
room extends this quiz's id (with extending ids the read also picks up
the other quiz's entry, see the counterexample). -/
theorem c10_leaderboard_keyed_by_quiz (s : AppState) (quiz : Quiz) (now : Int)
    (store : Store)
    (hq : s.session.selectedQuiz = some quiz)
    (hnd : (s.store.leaderboard.map Prod.fst).Nodup)
    (hnd' : (store.leaderboard.map Prod.fst).Nodup)
    (hpre : ∀ k ∈ store.leaderboard.map Prod.fst,
      k.1 = quiz.roomId → strStartsWith k.2 quiz.id = true → k.2 = quiz.id) :
    getDocList (quiz.roomId, quiz.id)
        (handleSubmitQuiz s now true true).store.leaderboard =
      some { studentId := s.userId
             studentName := s.userName
             score := calculateScore s.session.quizQuestions s.session.answers
             submittedAt := now } ∧
    ((handleSubmitQuiz s now true true).store.leaderboard.map Prod.fst).Nodup ∧
    (fetchLeaderboardEntries store quiz.roomId quiz.id).length ≤ 1 := by
  refine ⟨?_, ?_, ?_⟩
  · unfold handleSubmitQuiz
    simp [hq, getDocList_setDocList_self]
  · have hgoal : (handleSubmitQuiz s now true true).store.leaderboard =
        setDocList (quiz.roomId, quiz.id)
          { studentId := s.userId
            studentName := s.userName
            score := calculateScore s.session.quizQuestions s.session.answers
            submittedAt := now } s.store.leaderboard := by
      unfold handleSubmitQuiz
      simp [hq]
    rw [hgoal]
    exact setDocList_nodup_keys _ _ _ hnd
  · unfold fetchLeaderboardEntries
    rw [assignRanks_length, List.length_map]
    apply length_le_one_of_const_keys _ (quiz.roomId, quiz.id)
    · exact ((List.filter_sublist _).map Prod.fst).nodup hnd'
    · intro p hp
      rw [List.mem_filter] at hp
      obtain ⟨hpmem, hpcond⟩ := hp
      rw [Bool.and_eq_true, beq_iff_eq] at hpcond
      have hid : p.1.2 = quiz.id :=
        hpre p.1 (List.mem_map_of_mem Prod.fst hpmem) hpcond.1 hpcond.2
      exact Prod.ext hpcond.1 hid

/-- Witness for `c10_leaderboard_keyed_by_quiz`: a submit of quiz1 from a
fresh session, read back against the store that submit produced. -/
theorem c10_leaderboard_keyed_witness :
    ((startQuiz baseState quiz1 [sampleQuestion]).session.selectedQuiz = some quiz1 ∧
    ((startQuiz baseState quiz1 [sampleQuestion]).store.leaderboard.map Prod.fst).Nodup ∧
    (((handleSubmitQuiz (startQuiz baseState quiz1 [sampleQuestion]) 10 true
        true).store.leaderboard.map Prod.fst).Nodup ∧
    (∀ k ∈ (handleSubmitQuiz (startQuiz baseState quiz1 [sampleQuestion]) 10 true
        true).store.leaderboard.map Prod.fst,
      k.1 = quiz1.roomId → strStartsWith k.2 quiz1.id = true → k.2 = quiz1.id))) ∧
    (getDocList (quiz1.roomId, quiz1.id)
        (handleSubmitQuiz (startQuiz baseState quiz1 [sampleQuestion]) 5 true
          true).store.leaderboard =
      some { studentId := (startQuiz baseState quiz1 [sampleQuestion]).userId
             studentName := (startQuiz baseState quiz1 [sampleQuestion]).userName
             score := calculateScore
               (startQuiz baseState quiz1 [sampleQuestion]).session.quizQuestions
               (startQuiz baseState quiz1 [sampleQuestion]).session.answers
             submittedAt := 5 } ∧
    ((handleSubmitQuiz (startQuiz baseState quiz1 [sampleQuestion]) 5 true
        true).store.leaderboard.map Prod.fst).Nodup ∧
    (fetchLeaderboardEntries
      (handleSubmitQuiz (startQuiz baseState quiz1 [sampleQuestion]) 10 true
        true).store quiz1.roomId quiz1.id).length ≤ 1) :=
  ⟨⟨rfl, by decide, by decide, by decide⟩,
    c10_leaderboard_keyed_by_quiz (startQuiz baseState quiz1 [sampleQuestion])
      quiz1 5
      (handleSubmitQuiz (startQuiz baseState quiz1 [sampleQuestion]) 10 true
        true).store
      rfl (by decide) (by decide) (by decide)⟩

/-- C10, counterexample.  Storage holds exactly one leaderboard record
per quiz ("q1" and "q10"), yet the read for quiz "q1" yields two entries:
its `startsWith` filter also matches the document of quiz "q10", so the
claimed "at most one entry per read" fails. -/
theorem c10_prefix_read_counterexample :
    overlapStore.leaderboard.map Prod.fst = [("room1", "q1"), ("room1", "q10")] ∧
    (fetchLeaderboardEntries overlapStore "room1" "q1").length = 2 := by decide

end SmartQuizHub

